import Mathlib

/-!
# Verification of the Excel station-report aggregation core

Shallow embedding of `src/App.jsx` (the `processExcel` pipeline and
`handleMappingUpdate`) of the excel-formatter repository, together with
proofs of the specification's claims about it.

Modelling conventions:
* A spreadsheet record (one row produced by `sheet_to_json`) is an ordered
  association list from field name to a JavaScript scalar value.
* JavaScript scalar cell values are modelled by `JSValue`; numbers are
  modelled as integers (the claims only involve integral counts and the
  string coercion / truthiness of sample values such as `0`).
* JavaScript objects used as string-keyed dictionaries (`stationCounts`,
  `divisionData`, the parsed mapping) are modelled as association lists in
  insertion order; `Object.keys` iteration is modelled by iterating the list.
* `s.trim()`, `s.toUpperCase()`, `s.toLowerCase()` are modelled by `jsTrim`,
  `jsToUpper`, `jsToLower` below, working on the string's character list
  (exact for the ASCII whitespace and case range the code manipulates).
-/

/-- JavaScript `s.trim()`: remove whitespace from both ends of the string. -/
def jsTrim (s : String) : String :=
  ⟨((s.data.dropWhile Char.isWhitespace).reverse.dropWhile Char.isWhitespace).reverse⟩

/-- JavaScript `s.toUpperCase()` (ASCII range). -/
def jsToUpper (s : String) : String := ⟨s.data.map Char.toUpper⟩

/-- JavaScript `s.toLowerCase()` (ASCII range). -/
def jsToLower (s : String) : String := ⟨s.data.map Char.toLower⟩

/-- A JavaScript scalar value as it can appear in a parsed spreadsheet cell. -/
inductive JSValue where
  | vStr (s : String)
  | vNum (n : Int)
  | vBool (b : Bool)
  | vNull
  | vUndefined
deriving DecidableEq, Repr

/-- JavaScript truthiness of a `JSValue`, as tested by `if (station)` at
`App.jsx:109`: the empty string, `0`, `false`, `null` and `undefined` are
falsy, everything else is truthy. -/
def jsTruthy : JSValue → Bool
  | .vStr s => !(s == "")
  | .vNum n => !(n == 0)
  | .vBool b => b
  | .vNull => false
  | .vUndefined => false

/-- JavaScript `String(v)` coercion (`App.jsx:110`). -/
def jsToString : JSValue → String
  | .vStr s => s
  | .vNum n => toString n
  | .vBool b => if b then "true" else "false"
  | .vNull => "null"
  | .vUndefined => "undefined"

/-- One parsed spreadsheet row: an ordered field-name/value association list,
as produced by `XLSX.utils.sheet_to_json` (`App.jsx:93`). -/
def Record : Type := List (String × JSValue)

/-- JavaScript property read `row[key]`: the value of the first binding of
`key`, and `undefined` when the field is absent. -/
def getField (row : Record) (key : String) : JSValue :=
  match List.find? (fun p => p.1 == key) row with
  | some p => p.2
  | none => .vUndefined

/-- The field names of the first record, `Object.keys(jsonData[0] || {})`
(`App.jsx:95`): the empty list when the sheet has no records. -/
def firstKeys (rows : List Record) : List String :=
  match rows with
  | [] => []
  | r :: _ => r.map Prod.fst

/-- Station-column detection (`App.jsx:95-97`): the first field name of the
first record whose upper-cased, trimmed form is `"STATION"`. -/
def findStationKey (rows : List Record) : Option String :=
  List.find? (fun key => jsTrim (jsToUpper key) == "STATION") (firstKeys rows)

/-- `stationCounts[s] = (stationCounts[s] || 0) + 1` (`App.jsx:112`) on an
association list kept in JavaScript-object insertion order: increment the
existing binding, or append a fresh binding with count 1. -/
def bump (counts : List (String × Nat)) (s : String) : List (String × Nat) :=
  match counts with
  | [] => [(s, 1)]
  | (k, v) :: rest => if k == s then (k, v + 1) :: rest else (k, v) :: bump rest s

/-- The body of the counting loop (`App.jsx:107-115`) for one row: skip a
falsy station value, coerce to string and trim, skip if the trimmed string is
empty, otherwise increment that station's count. -/
def stepRow (key : String) (counts : List (String × Nat)) (row : Record) :
    List (String × Nat) :=
  let station := getField row key
  if jsTruthy station then
    let stationStr := jsTrim (jsToString station)
    if stationStr == "" then counts else bump counts stationStr
  else counts

/-- The station-counting pass (`App.jsx:106-115`): fold `stepRow` over the
sheet's records starting from the empty dictionary. -/
def countStations (rows : List Record) (key : String) : List (String × Nat) :=
  rows.foldl (stepRow key) []

/-- The error message thrown at `App.jsx:100-102` when no STATION column is
found. -/
def missingColumnMsg (sheetName : String) : String :=
  "Sheet \"" ++ sheetName ++ "\" does not have a STATION column"

/-- Station counting for one sheet including column detection
(`App.jsx:95-115`): fails with the missing-column message when no field of
the first record matches `"STATION"`, otherwise returns the counts. -/
def countSheet (sheetName : String) (rows : List Record) :
    Except String (List (String × Nat)) :=
  match findStationKey rows with
  | none => .error (missingColumnMsg sheetName)
  | some key => .ok (countStations rows key)

/-- The sum of all counts in the counts dictionary (spec side of C3: "the sum
over all values of the counts mapping"). -/
def sumCounts (counts : List (String × Nat)) : Nat :=
  (counts.map Prod.snd).sum

/-- Spec side of claim C3, following its words: the number of records whose
station entry is non-blank after coercion to string and trimming. -/
def specNonBlankCount (rows : List Record) (key : String) : Nat :=
  rows.countP (fun row => !(jsTrim (jsToString (getField row key)) == ""))

example : countStations [[("STATION", .vStr " A ")], [("STATION", .vStr "A")],
    [("STATION", .vNum 0)], [("STATION", .vStr "  ")]] "STATION" = [("A", 2)] := by decide

example : countSheet "S1" [] = .error "Sheet \"S1\" does not have a STATION column" := rfl

/-- A division mapping table: the parsed `divisionMapping` JSON object, an
ordered association from division name to declared member (office) list. Keys
of a JavaScript object are unique; theorems that need this take it as a
`Nodup` hypothesis. -/
def MappingTable : Type := List (String × List String)

/-- `divisionMapping[division]` (`App.jsx:122`): the declared office list of a
division (`[]` is never reached for keys of the table itself). -/
def offices (m : MappingTable) (division : String) : List String :=
  match List.find? (fun p => p.1 == division) m with
  | some p => p.2
  | none => []

/-- Lexicographic code-unit comparison of two strings given as character
lists: the order JavaScript's `<` on strings and the default `Array.sort`
comparator use. -/
def ltCharList : List Char → List Char → Bool
  | [], [] => false
  | [], _ :: _ => true
  | _ :: _, [] => false
  | a :: as, b :: bs => if a < b then true else if b < a then false else ltCharList as bs

/-- JavaScript string comparison `a < b` by code units. -/
def jsStrLt (a b : String) : Bool := ltCharList a.data b.data

/-- The non-strict order underlying default `Array.sort` on strings. -/
def jsStrLe (a b : String) : Prop := jsStrLt b a = false

instance : DecidableRel jsStrLe := fun _ _ =>
  inferInstanceAs (Decidable (_ = false))

/-- `Object.keys(divisionMapping).sort()` (`App.jsx:118`): the division names
in default JavaScript sort order, i.e. ascending code-unit lexicographic
order. -/
def sortedDivisions (m : MappingTable) : List String :=
  List.insertionSort jsStrLe (m.map Prod.fst)

/-- Strict version of the comparator `(a, b) => a.localeCompare(b)`
(`App.jsx:126`), modelling the default-locale collation the code sorts
offices with: compare the lowercase-folded strings by code units first; on a
tie the lowercase-first tertiary difference is the reverse of code-unit
order. -/
def localeLt (a b : String) : Bool :=
  if ltCharList (jsToLower a).data (jsToLower b).data then true
  else if ltCharList (jsToLower b).data (jsToLower a).data then false
  else ltCharList b.data a.data

/-- `a.localeCompare(b) <= 0` as the sorting relation for offices. -/
def localeLe (a b : String) : Prop := localeLt b a = false

instance : DecidableRel localeLe := fun _ _ =>
  inferInstanceAs (Decidable (_ = false))

/-- The case-insensitive station match `station.toLowerCase() ===
office.toLowerCase()` (`App.jsx:130`). -/
def ciEq (station office : String) : Bool :=
  jsToLower station == jsToLower office

/-- Lines `App.jsx:129-132`: find the first key of `stationCounts` matching
the office case-insensitively; its count, or 0 when there is none. -/
def lookupCount (counts : List (String × Nat)) (office : String) : Nat :=
  match List.find? (fun p => ciEq p.1 office) counts with
  | some p => p.2
  | none => 0

/-- Lines `App.jsx:123-134`: one division's `officeData`, the declared office
list sorted with `localeCompare`, each office paired with the count of its
first case-insensitive match in `stationCounts` (0 when unmatched). -/
def buildOfficeData (counts : List (String × Nat)) (offs : List String) :
    List (String × Nat) :=
  (List.insertionSort localeLe offs).map (fun office => (office, lookupCount counts office))

/-- Lines `App.jsx:117-137`: `divisionData`, keyed by the divisions of
`sortedDivisions` and consumed downstream by iterating `sortedDivisions`,
modelled as the association list in that iteration order. -/
def buildDivisionData (m : MappingTable) (counts : List (String × Nat)) :
    List (String × List (String × Nat)) :=
  (sortedDivisions m).map (fun division => (division, buildOfficeData counts (offices m division)))

/-- One output cell: the code writes strings (labels, blanks, office names)
and numbers (counts, totals) into the grid. -/
inductive Cell where
  | str (s : String)
  | num (n : Nat)
deriving DecidableEq, Repr

/-- Header row 1 (`App.jsx:147-154`): per division, the division name and a
blank cell. -/
def headerRow1 (dd : List (String × List (String × Nat))) : List Cell :=
  dd.flatMap (fun g => [Cell.str g.1, Cell.str ""])

/-- Header row 2 (`App.jsx:156-163`): per division, the literal sub-header
labels. -/
def headerRow2 (dd : List (String × List (String × Nat))) : List Cell :=
  dd.flatMap (fun _ => [Cell.str "Office", Cell.str "No. of Toolkits"])

/-- One division's two cells in data row `r` (`App.jsx:170-177`): its `r`-th
office/count pair when `r` is within its list, two blank cells otherwise. -/
def rowCells (g : String × List (String × Nat)) (r : Nat) : List Cell :=
  match g.2[r]? with
  | some oc => [Cell.str oc.1, Cell.num oc.2]
  | none => [Cell.str "", Cell.str ""]

/-- Data row `r` (`App.jsx:166-180`): the divisions' blocks side by side. -/
def dataRow (dd : List (String × List (String × Nat))) (r : Nat) : List Cell :=
  dd.flatMap (fun g => rowCells g r)

/-- `Math.max(...lengths)` (`App.jsx:140-142`) as the number of data rows: for
a non-empty mapping this is the maximum office-list length; for an empty
mapping `Math.max()` is `-Infinity` and the data-row loop runs zero times,
the same as the value 0 used here. -/
def maxRows (dd : List (String × List (String × Nat))) : Nat :=
  (dd.map (fun g => g.2.length)).foldr max 0

/-- `reduce((sum, item) => sum + item.count, 0)` (`App.jsx:186-189`): a
division's subtotal. -/
def divisionTotal (g : String × List (String × Nat)) : Nat :=
  g.2.foldl (fun sum item => sum + item.2) 0

/-- The Total row (`App.jsx:182-193`): per division, the literal label and the
subtotal. -/
def totalRow (dd : List (String × List (String × Nat))) : List Cell :=
  dd.flatMap (fun g => [Cell.str "Total", Cell.num (divisionTotal g)])

/-- The output grid of one sheet (`App.jsx:145-208`): header rows, `maxRows`
data rows, and the Total row. Every row object carries exactly the keys
`col0 .. col(2n-1)`, all with defined values, so the `while`-loop conversion
to an array of arrays (`App.jsx:196-208`) yields exactly these cells in
order. -/
def buildGrid (dd : List (String × List (String × Nat))) : List (List Cell) :=
  headerRow1 dd :: headerRow2 dd ::
    ((List.range (maxRows dd)).map (dataRow dd) ++ [totalRow dd])

/-- The whole per-sheet pipeline after counting (`App.jsx:117-208`). -/
def fullGrid (m : MappingTable) (counts : List (String × Nat)) : List (List Cell) :=
  buildGrid (buildDivisionData m counts)

example : buildDivisionData [("North", ["A", "B"]), ("South", ["C"])] [("a", 2)] =
    [("North", [("A", 2), ("B", 0)]), ("South", [("C", 0)])] := by decide

example : fullGrid [("Div1", ["Alpha", "Beta"]), ("Div2", ["Gamma"])]
      [("Alpha", 2), ("beta", 1), ("Gamma", 1)] =
    [[.str "Div1", .str "", .str "Div2", .str ""],
     [.str "Office", .str "No. of Toolkits", .str "Office", .str "No. of Toolkits"],
     [.str "Alpha", .num 2, .str "Gamma", .num 1],
     [.str "Beta", .num 1, .str "", .str ""],
     [.str "Total", .num 3, .str "Total", .num 1]] := by decide

example : fullGrid [] [("X", 1)] = [[], [], []] := by decide

/-- The component state touched by `handleMappingUpdate` (`App.jsx:13-19`),
generic in the type `α` of the parsed mapping value. -/
structure AppState (α : Type) where
  divisionMapping : Option α
  mappingText : String
  showMapping : Bool
  error : String
  success : String

/-- `handleMappingUpdate` (`App.jsx:58-68`), with `JSON.parse` abstracted as a
function returning `none` exactly when parsing throws: on success the parsed
value replaces the active mapping wholesale, the editor closes, the error
clears and a success message is set; on failure only the error message is
set. -/
def handleMappingUpdate {α : Type} (parseJson : String → Option α) (s : AppState α) :
    AppState α :=
  match parseJson s.mappingText with
  | some parsed =>
      { s with divisionMapping := some parsed, showMapping := false, error := "",
               success := "Division mapping updated successfully!" }
  | none => { s with error := "Invalid JSON format for division mapping" }

/-! ## Helper lemmas -/

/-- A record passes the counting filter when its station value is truthy and
its trimmed string coercion is non-empty (`App.jsx:109-111`). -/
def keepRow (key : String) (row : Record) : Bool :=
  jsTruthy (getField row key) && !(jsTrim (jsToString (getField row key)) == "")

theorem sumCounts_bump (c : List (String × Nat)) (s : String) :
    sumCounts (bump c s) = sumCounts c + 1 := by
  induction c with
  | nil => simp [bump, sumCounts]
  | cons p rest ih =>
      obtain ⟨k, v⟩ := p
      by_cases h : k == s
      · simp [bump, h, sumCounts, add_assoc, add_comm, add_left_comm]
      · simp only [bump, h, if_neg, Bool.false_eq_true, ite_false, sumCounts,
          List.map_cons, List.sum_cons] at *
        omega

theorem sumCounts_stepRow (key : String) (c : List (String × Nat)) (row : Record) :
    sumCounts (stepRow key c row) = sumCounts c + (if keepRow key row then 1 else 0) := by
  unfold stepRow keepRow
  by_cases ht : jsTruthy (getField row key)
  · by_cases he : jsTrim (jsToString (getField row key)) == ""
    · simp [ht, he]
    · simp [ht, he, sumCounts_bump]
  · simp [ht]

theorem sumCounts_foldl (key : String) (rows : List Record) (acc : List (String × Nat)) :
    sumCounts (rows.foldl (stepRow key) acc) = sumCounts acc + rows.countP (keepRow key) := by
  induction rows generalizing acc with
  | nil => simp
  | cons row rest ih =>
      simp only [List.foldl_cons, ih, sumCounts_stepRow, List.countP_cons]
      omega

theorem find?_eq_some_of_unique {α : Type} {p : α → Bool} {l : List α} {a : α}
    (ha : a ∈ l) (hpa : p a = true) (huniq : ∀ b ∈ l, p b = true → b = a) :
    l.find? p = some a := by
  cases hf : l.find? p with
  | none => exact absurd hpa (by simpa using List.find?_eq_none.mp hf a ha)
  | some b =>
      have hb : b ∈ l := List.mem_of_find?_eq_some hf
      have hpb : p b = true := List.find?_some hf
      rw [huniq b hb hpb]

theorem length_flatMap_two {α : Type} (f : α → List Cell) (hf : ∀ g, (f g).length = 2)
    (l : List α) : (l.flatMap f).length = 2 * l.length := by
  induction l with
  | nil => simp
  | cons g t ih => simp [List.flatMap_cons, ih, hf g]; ring

theorem flatMap_two_getElem {α : Type} (f : α → List Cell) (hf : ∀ g, (f g).length = 2)
    (l : List α) (i : Nat) (hi : i < l.length) :
    (l.flatMap f)[2 * i]? = (f (l.get ⟨i, hi⟩))[0]? ∧
      (l.flatMap f)[2 * i + 1]? = (f (l.get ⟨i, hi⟩))[1]? := by
  induction l generalizing i with
  | nil => simp at hi
  | cons g t ih =>
      cases i with
      | zero =>
          have h0 : (0 : Nat) < (f g).length := by rw [hf g]; omega
          have h1 : (1 : Nat) < (f g).length := by rw [hf g]; omega
          constructor
          · rw [Nat.mul_zero, List.flatMap_cons, List.getElem?_append, if_pos h0]
            rfl
          · rw [Nat.mul_zero, Nat.zero_add, List.flatMap_cons, List.getElem?_append, if_pos h1]
            rfl
      | succ j =>
          have hj : j < t.length := by simpa using hi
          have hlen : (f g).length ≤ 2 * (j + 1) := by rw [hf g]; omega
          have hlen' : (f g).length ≤ 2 * (j + 1) + 1 := by rw [hf g]; omega
          obtain ⟨ih1, ih2⟩ := ih j hj
          constructor
          · rw [List.flatMap_cons, List.getElem?_append_right hlen, hf g]
            have : 2 * (j + 1) - 2 = 2 * j := by omega
            rw [this, ih1]
            rfl
          · rw [List.flatMap_cons, List.getElem?_append_right hlen', hf g]
            have : 2 * (j + 1) + 1 - 2 = 2 * j + 1 := by omega
            rw [this, ih2]
            rfl

theorem ltCharList_irrefl (l : List Char) : ltCharList l l = false := by
  induction l with
  | nil => rfl
  | cons a t ih => simp [ltCharList, ih, lt_irrefl]

theorem ltCharList_trans {a b c : List Char} (hab : ltCharList a b = true)
    (hbc : ltCharList b c = true) : ltCharList a c = true := by
  induction a generalizing b c with
  | nil =>
      cases b with
      | nil => simp [ltCharList] at hab
      | cons y bs =>
          cases c with
          | nil => simp [ltCharList] at hbc
          | cons z cs => rfl
  | cons x as ih =>
      cases b with
      | nil => simp [ltCharList] at hab
      | cons y bs =>
          cases c with
          | nil => simp [ltCharList] at hbc
          | cons z cs =>
              simp only [ltCharList] at hab hbc ⊢
              by_cases hxy : x < y
              · by_cases hyz : y < z
                · rw [if_pos (lt_trans hxy hyz)]
                · by_cases hzy : z < y
                  · simp [hyz, hzy] at hbc
                  · have hyz' : y = z := le_antisymm (le_of_not_lt hzy) (le_of_not_lt hyz)
                    rw [if_pos (hyz' ▸ hxy)]
              · by_cases hyx : y < x
                · simp [hxy, hyx] at hab
                · have hxy' : x = y := le_antisymm (le_of_not_lt hyx) (le_of_not_lt hxy)
                  subst hxy'
                  rw [if_neg hxy, if_neg hyx] at hab
                  by_cases hxz : x < z
                  · rw [if_pos hxz]
                  · by_cases hzx : z < x
                    · simp [hxz, hzx] at hbc
                    · rw [if_neg hxz, if_neg hzx] at hbc ⊢
                      exact ih hab hbc

theorem ltCharList_eq_of_not {a b : List Char} (h1 : ltCharList a b = false)
    (h2 : ltCharList b a = false) : a = b := by
  induction a generalizing b with
  | nil =>
      cases b with
      | nil => rfl
      | cons y bs => simp [ltCharList] at h1
  | cons x as ih =>
      cases b with
      | nil => simp [ltCharList] at h2
      | cons y bs =>
          simp only [ltCharList] at h1 h2
          by_cases hxy : x < y
          · simp [hxy] at h1
          · by_cases hyx : y < x
            · simp [hyx] at h2
            · have hxy' : x = y := le_antisymm (le_of_not_lt hyx) (le_of_not_lt hxy)
              rw [if_neg hxy, if_neg hyx] at h1
              rw [if_neg hyx, if_neg hxy] at h2
              rw [hxy', ih h1 h2]

theorem bool_eq_false {b : Bool} (h : ¬ b = true) : b = false := by
  cases b
  · rfl
  · exact absurd rfl h

theorem string_data_inj {a b : String} (h : a.data = b.data) : a = b := by
  cases a
  cases b
  exact congrArg String.mk h

theorem localeLt_irrefl (a : String) : localeLt a a = false := by
  simp [localeLt, ltCharList_irrefl]

theorem localeLt_trans {a b c : String} (hab : localeLt a b = true)
    (hbc : localeLt b c = true) : localeLt a c = true := by
  unfold localeLt at hab hbc ⊢
  by_cases h1 : ltCharList (jsToLower a).data (jsToLower b).data = true
  · by_cases h2 : ltCharList (jsToLower b).data (jsToLower c).data = true
    · rw [if_pos (ltCharList_trans h1 h2)]
    · by_cases h3 : ltCharList (jsToLower c).data (jsToLower b).data = true
      · rw [if_neg h2, if_pos h3] at hbc
        exact absurd hbc (by simp)
      · have hBC : (jsToLower b).data = (jsToLower c).data :=
          ltCharList_eq_of_not (bool_eq_false h2) (bool_eq_false h3)
        rw [if_pos (hBC ▸ h1)]
  · by_cases h4 : ltCharList (jsToLower b).data (jsToLower a).data = true
    · rw [if_neg h1, if_pos h4] at hab
      exact absurd hab (by simp)
    · have hAB : (jsToLower a).data = (jsToLower b).data :=
        ltCharList_eq_of_not (bool_eq_false h1) (bool_eq_false h4)
      rw [if_neg h1, if_neg h4] at hab
      by_cases h2 : ltCharList (jsToLower b).data (jsToLower c).data = true
      · rw [if_pos (hAB.symm ▸ h2)]
      · by_cases h3 : ltCharList (jsToLower c).data (jsToLower b).data = true
        · rw [if_neg h2, if_pos h3] at hbc
          exact absurd hbc (by simp)
        · have hBC : (jsToLower b).data = (jsToLower c).data :=
            ltCharList_eq_of_not (bool_eq_false h2) (bool_eq_false h3)
          rw [if_neg h2, if_neg h3] at hbc
          have hAC : (jsToLower a).data = (jsToLower c).data := hAB.trans hBC
          rw [hAC, if_neg (by simp [ltCharList_irrefl]), if_neg (by simp [ltCharList_irrefl])]
          exact ltCharList_trans hbc hab

theorem localeLt_asymm {a b : String} (h : localeLt a b = true) : localeLt b a = false := by
  cases hba : localeLt b a
  · rfl
  · exact absurd (localeLt_trans h hba) (by simp [localeLt_irrefl])

theorem localeLt_eq_of_not {a b : String} (h1 : localeLt a b = false)
    (h2 : localeLt b a = false) : a = b := by
  unfold localeLt at h1 h2
  by_cases hAB : ltCharList (jsToLower a).data (jsToLower b).data = true
  · rw [if_pos hAB] at h1
    cases h1
  · by_cases hBA : ltCharList (jsToLower b).data (jsToLower a).data = true
    · rw [if_pos hBA] at h2
      cases h2
    · rw [if_neg hAB, if_neg hBA] at h1
      rw [if_neg hBA, if_neg hAB] at h2
      exact string_data_inj (ltCharList_eq_of_not h2 h1)

instance : IsTotal String localeLe :=
  ⟨fun a b => by
    unfold localeLe
    cases hba : localeLt b a
    · exact Or.inl rfl
    · exact Or.inr (localeLt_asymm hba)⟩

instance : IsTrans String localeLe :=
  ⟨fun a b c hab hbc => by
    unfold localeLe at hab hbc ⊢
    cases hca : localeLt c a
    · rfl
    · exfalso
      by_cases hab' : localeLt a b = true
      · rw [localeLt_trans hca hab'] at hbc
        cases hbc
      · have : a = b := localeLt_eq_of_not (bool_eq_false hab') hab
        rw [this] at hca
        rw [hca] at hbc
        cases hbc⟩

theorem foldr_max_le {l : List Nat} {x : Nat} (hx : x ∈ l) : x ≤ l.foldr max 0 := by
  induction l with
  | nil => simp at hx
  | cons a t ih =>
      rcases List.mem_cons.mp hx with h | h
      · subst h
        simp [le_max_iff]
      · simp [List.foldr_cons, le_max_iff, ih h]

theorem foldr_max_mem {l : List Nat} (h : l ≠ []) : l.foldr max 0 ∈ l := by
  induction l with
  | nil => exact absurd rfl h
  | cons a t ih =>
      cases t with
      | nil => simp
      | cons b t' =>
          have ih' := ih (by simp)
          rcases le_total ((b :: t').foldr max 0) a with hle | hle
          · rw [List.foldr_cons, max_eq_left hle]
            exact List.mem_cons_self a _
          · rw [List.foldr_cons, max_eq_right hle]
            exact List.mem_cons_of_mem a ih'

theorem foldl_add_counts (l : List (String × Nat)) (n : Nat) :
    l.foldl (fun sum item => sum + item.2) n = n + (l.map Prod.snd).sum := by
  induction l generalizing n with
  | nil => simp
  | cons p t ih => simp [List.foldl_cons, ih, add_assoc]

theorem divisionTotal_eq_sum (g : String × List (String × Nat)) :
    divisionTotal g = (g.2.map Prod.snd).sum := by
  simp [divisionTotal, foldl_add_counts]

theorem rowCells_length (g : String × List (String × Nat)) (r : Nat) :
    (rowCells g r).length = 2 := by
  unfold rowCells
  cases g.2[r]? <;> rfl

theorem headerRow1_length (dd : List (String × List (String × Nat))) :
    (headerRow1 dd).length = 2 * dd.length := by
  unfold headerRow1
  apply length_flatMap_two
  intro g
  rfl

theorem headerRow2_length (dd : List (String × List (String × Nat))) :
    (headerRow2 dd).length = 2 * dd.length := by
  unfold headerRow2
  apply length_flatMap_two
  intro g
  rfl

theorem dataRow_length (dd : List (String × List (String × Nat))) (r : Nat) :
    (dataRow dd r).length = 2 * dd.length := by
  unfold dataRow
  apply length_flatMap_two
  intro g
  exact rowCells_length g r

theorem totalRow_length (dd : List (String × List (String × Nat))) :
    (totalRow dd).length = 2 * dd.length := by
  unfold totalRow
  apply length_flatMap_two
  intro g
  rfl

theorem grid_row_length (dd : List (String × List (String × Nat))) (row : List Cell)
    (hrow : row ∈ buildGrid dd) : row.length = 2 * dd.length := by
  unfold buildGrid at hrow
  rcases List.mem_cons.mp hrow with h | hrow
  · subst h
    exact headerRow1_length dd
  rcases List.mem_cons.mp hrow with h | hrow
  · subst h
    exact headerRow2_length dd
  rcases List.mem_append.mp hrow with hmap | hlast
  · obtain ⟨r, _, hr⟩ := List.mem_map.mp hmap
    subst hr
    exact dataRow_length dd r
  · rw [List.mem_singleton.mp hlast]
    exact totalRow_length dd

/-! ## The claims -/

/-- **C3 (counterexample)**: the claim "the sum over all values of the counts
mapping equals the number of records whose station entry is non-blank after
coercion to string and trimming" is false: a record whose station value is the
number 0 coerces to the non-blank string "0" but is skipped by the truthiness
test, so the counted sum is 0 while the claimed quantity is 1. -/
theorem c3_station_sum_counterexample :
    sumCounts (countStations [[("STATION", JSValue.vNum 0)]] "STATION") = 0 ∧
      specNonBlankCount [[("STATION", JSValue.vNum 0)]] "STATION" = 1 := by
  constructor
  · rfl
  · rfl

/-- **C3 (amended)**: for every sequence of input records, the sum over all
values of the counts mapping returned by station counting equals the number of
records whose station entry is truthy and non-blank after coercion to string
and trimming. -/
theorem c3_station_sum_amended (rows : List Record) (key : String) :
    sumCounts (countStations rows key) = rows.countP (keepRow key) := by
  have h := sumCounts_foldl key rows []
  simpa [sumCounts] using h

/-- **C5**: for every sheet in which no field name of the first record matches
"STATION" case-insensitively after trimming — including a sheet with zero
records — station counting fails with a missing-column error whose message
names the offending sheet; for every sheet where such a field exists, counting
succeeds. -/
theorem c5_missing_column (sheetName : String) (rows : List Record) :
    ((∀ k ∈ firstKeys rows, ¬ jsTrim (jsToUpper k) = "STATION") →
        countSheet sheetName rows = .error (missingColumnMsg sheetName) ∧
          ∃ pre post, missingColumnMsg sheetName = pre ++ sheetName ++ post) ∧
      ((∃ k ∈ firstKeys rows, jsTrim (jsToUpper k) = "STATION") →
        ∃ counts, countSheet sheetName rows = .ok counts) := by
  constructor
  · intro h
    refine ⟨?_, "Sheet \"", "\" does not have a STATION column", rfl⟩
    have hf : findStationKey rows = none := by
      apply List.find?_eq_none.mpr
      intro k hk
      simpa using h k hk
    simp [countSheet, hf]
  · rintro ⟨k, hk, hmatch⟩
    cases hf : findStationKey rows with
    | none =>
        exact absurd hmatch (by simpa using List.find?_eq_none.mp hf k hk)
    | some key => exact ⟨countStations rows key, by simp [countSheet, hf]⟩

/-- Witness for C5: a sheet with only a "Name" field fails with the message
naming the sheet; a sheet whose first record has a " station " field (matching
under case and spacing) succeeds. -/
theorem c5_missing_column_witness :
    countSheet "Sales" [[("Name", JSValue.vStr "x")]] =
        .error (missingColumnMsg "Sales") ∧
      ∃ counts, countSheet "Data" [[(" station ", JSValue.vStr "A")]] = .ok counts := by
  constructor
  · exact ((c5_missing_column "Sales" [[("Name", JSValue.vStr "x")]]).1 (by decide)).1
  · exact (c5_missing_column "Data" [[(" station ", JSValue.vStr "A")]]).2
      ⟨" station ", by decide, by decide⟩

/-- **C8 (counterexample)**: the claim that for an empty mapping the produced
grid consists of the two header rows only is false: the code also pushes the
Total row, so the grid has three (empty) rows, not two. -/
theorem c8_empty_mapping_counterexample :
    fullGrid [] [] = [[], [], []] ∧ ¬ (fullGrid [] []).length = 2 := by
  constructor
  · rfl
  · decide

/-- **C8 (amended)**: when the set of division groups is empty (empty mapping
table), the produced grid consists of three zero-column rows — the
division-name row, the sub-header row and the Total row — and the layout does
not fail. -/
theorem c8_empty_mapping_amended (counts : List (String × Nat)) :
    fullGrid [] counts = [[], [], []] := rfl

/-- **C9**: a mapping-configuration text that fails to parse is rejected with
an error and the active mapping is left unchanged; a text that parses replaces
the active mapping wholesale by the parsed value. -/
theorem c9_mapping_update (α : Type) (parseJson : String → Option α) (s : AppState α) :
    (parseJson s.mappingText = none →
        (handleMappingUpdate parseJson s).divisionMapping = s.divisionMapping ∧
          (handleMappingUpdate parseJson s).error = "Invalid JSON format for division mapping") ∧
      (∀ v, parseJson s.mappingText = some v →
        (handleMappingUpdate parseJson s).divisionMapping = some v) := by
  constructor
  · intro h
    simp [handleMappingUpdate, h]
  · intro v h
    simp [handleMappingUpdate, h]

/-- Witness for C9: with a parser that rejects the current text, the active
mapping (here `some 7`) survives and the error message is set. -/
theorem c9_mapping_update_witness :
    (handleMappingUpdate (fun _ => (none : Option Nat))
          ⟨some 7, "not json", true, "", ""⟩).divisionMapping = some 7 ∧
      (handleMappingUpdate (fun _ => (none : Option Nat))
          ⟨some 7, "not json", true, "", ""⟩).error =
        "Invalid JSON format for division mapping" :=
  (c9_mapping_update Nat (fun _ => none) ⟨some 7, "not json", true, "", ""⟩).1 rfl

/-- **C10**: a record whose station-field value is falsy — for example the
number 0 or the boolean false, whose string coercions "0" and "false" are
non-empty after trimming — is skipped entirely by station counting and never
contributes to any station's count. -/
theorem c10_falsy_station_skipped (rows : List Record) (key : String) (row : Record)
    (h : jsTruthy (getField row key) = false) :
    countStations (row :: rows) key = countStations rows key ∧
      jsTrim (jsToString (JSValue.vNum 0)) = "0" ∧
      jsTrim (jsToString (JSValue.vBool false)) = "false" := by
  refine ⟨?_, rfl, rfl⟩
  have hstep : stepRow key [] row = [] := by
    simp [stepRow, h]
  rw [countStations, countStations, List.foldl_cons, hstep]

/-- Witness for C10: a record with station value 0 leaves the counts of the
other records untouched. -/
theorem c10_falsy_station_skipped_witness :
    countStations [[("STATION", JSValue.vNum 0)], [("STATION", JSValue.vStr "X")]]
          "STATION" =
        countStations [[("STATION", JSValue.vStr "X")]] "STATION" ∧
      jsTrim (jsToString (JSValue.vNum 0)) = "0" ∧
      jsTrim (jsToString (JSValue.vBool false)) = "false" :=
  c10_falsy_station_skipped [[("STATION", JSValue.vStr "X")]] "STATION"
    [("STATION", JSValue.vNum 0)] (by decide)

/-- **C2**: in totals-grid mode, for every aggregated set of division groups,
the final row of the grid holds, in each division's block, the literal label
"Total" in the first column and, in the second column, the sum of that
division's member counts. -/
theorem c2_total_row (dd : List (String × List (String × Nat))) (i : Nat)
    (hi : i < dd.length) :
    (buildGrid dd).getLast? = some (totalRow dd) ∧
      (totalRow dd)[2 * i]? = some (Cell.str "Total") ∧
      (totalRow dd)[2 * i + 1]? =
        some (Cell.num (((dd.get ⟨i, hi⟩).2.map Prod.snd).sum)) := by
  refine ⟨?_, ?_, ?_⟩
  · unfold buildGrid
    rw [show headerRow1 dd :: headerRow2 dd ::
          ((List.range (maxRows dd)).map (dataRow dd) ++ [totalRow dd]) =
        (headerRow1 dd :: headerRow2 dd :: (List.range (maxRows dd)).map (dataRow dd)) ++
          [totalRow dd] by simp]
    exact List.getLast?_concat _
  · have h := (flatMap_two_getElem (fun g => [Cell.str "Total", Cell.num (divisionTotal g)])
      (fun _ => rfl) dd i hi).1
    unfold totalRow
    rw [h]
    rfl
  · have h := (flatMap_two_getElem (fun g => [Cell.str "Total", Cell.num (divisionTotal g)])
      (fun _ => rfl) dd i hi).2
    unfold totalRow
    rw [h]
    simp [divisionTotal_eq_sum]

/-- Witness for C2 at a single division with counts 2 and 3: the last grid row
is the Total row, holding "Total" and 5. -/
theorem c2_total_row_witness :
    (buildGrid [("D", [("A", 2), ("B", 3)])]).getLast? =
        some (totalRow [("D", [("A", 2), ("B", 3)])]) ∧
      (totalRow [("D", [("A", 2), ("B", 3)])])[2 * 0]? = some (Cell.str "Total") ∧
      (totalRow [("D", [("A", 2), ("B", 3)])])[2 * 0 + 1]? =
        some (Cell.num ((([("A", 2), ("B", 3)] : List (String × Nat)).map Prod.snd).sum)) :=
  c2_total_row [("D", [("A", 2), ("B", 3)])] 0 (by decide)

/-- **C6**: for every input mapping table and counts, every row of the produced
grid has the same length: the number of divisions times the 2 columns per
division block, the number of divisions being the mapping's size. -/
theorem c6_grid_rectangular (m : MappingTable) (counts : List (String × Nat))
    (row : List Cell) (hrow : row ∈ fullGrid m counts) :
    row.length = 2 * (buildDivisionData m counts).length ∧
      (buildDivisionData m counts).length = m.length := by
  constructor
  · exact grid_row_length _ row hrow
  · unfold buildDivisionData sortedDivisions
    rw [List.length_map, List.length_insertionSort, List.length_map]

/-- Witness for C6: the Total row of a one-division grid has length 2 × 1. -/
theorem c6_grid_rectangular_witness :
    ([Cell.str "Total", Cell.num 0] : List Cell).length =
        2 * (buildDivisionData [("D", ["A"])] []).length ∧
      (buildDivisionData [("D", ["A"])] []).length =
        ([("D", ["A"])] : MappingTable).length :=
  c6_grid_rectangular [("D", ["A"])] [] [Cell.str "Total", Cell.num 0] (by decide)

/-- **C7**: every division's member-list length is at most the grid's max-row
count, which (for a non-empty set of groups) is attained by some division;
rows 2..(1+maxRows) of the grid are the data rows, and within a data row a
division's block beyond its own member-list length consists of blank cells. -/
theorem c7_padding (dd : List (String × List (String × Nat))) :
    (∀ g ∈ dd, g.2.length ≤ maxRows dd) ∧
      (dd ≠ [] → maxRows dd ∈ dd.map (fun g => g.2.length)) ∧
      (∀ r, r < maxRows dd → (buildGrid dd)[r + 2]? = some (dataRow dd r)) ∧
      (∀ i, (hi : i < dd.length) → ∀ r, (dd.get ⟨i, hi⟩).2.length ≤ r →
        (dataRow dd r)[2 * i]? = some (Cell.str "") ∧
          (dataRow dd r)[2 * i + 1]? = some (Cell.str "")) := by
  refine ⟨?_, ?_, ?_, ?_⟩
  · intro g hg
    exact foldr_max_le (List.mem_map_of_mem (fun g => g.2.length) hg)
  · intro hne
    exact foldr_max_mem (by simpa using hne)
  · intro r hr
    unfold buildGrid
    rw [show r + 2 = (r + 1) + 1 from rfl, List.getElem?_cons_succ, List.getElem?_cons_succ]
    have hrlen : r < ((List.range (maxRows dd)).map (dataRow dd)).length := by
      simpa using hr
    rw [List.getElem?_append, if_pos hrlen, List.getElem?_map]
    simp [List.getElem?_range, hr]
  · intro i hi r hr
    have h := flatMap_two_getElem (fun g => rowCells g r)
      (fun g => rowCells_length g r) dd i hi
    have hb : rowCells (dd.get ⟨i, hi⟩) r = [Cell.str "", Cell.str ""] := by
      unfold rowCells
      rw [List.getElem?_eq_none hr]
    unfold dataRow
    rw [h.1, h.2, hb]
    exact ⟨rfl, rfl⟩

/-- Witness for C7 at two divisions of sizes 1 and 2: maxRows is 2, attained
by the second division, data row 1 exists in the grid, and the first
division's block in data row 1 is blank. -/
theorem c7_padding_witness :
    ((("D1", [("A", 1)]) : String × List (String × Nat)).2.length ≤
        maxRows [("D1", [("A", 1)]), ("D2", [("B", 2), ("C", 3)])]) ∧
      (maxRows [("D1", [("A", 1)]), ("D2", [("B", 2), ("C", 3)])] ∈
        ([("D1", [("A", 1)]), ("D2", [("B", 2), ("C", 3)])] :
            List (String × List (String × Nat))).map (fun g => g.2.length)) ∧
      ((buildGrid [("D1", [("A", 1)]), ("D2", [("B", 2), ("C", 3)])])[1 + 2]? =
        some (dataRow [("D1", [("A", 1)]), ("D2", [("B", 2), ("C", 3)])] 1)) ∧
      ((dataRow [("D1", [("A", 1)]), ("D2", [("B", 2), ("C", 3)])] 1)[2 * 0]? =
          some (Cell.str "") ∧
        (dataRow [("D1", [("A", 1)]), ("D2", [("B", 2), ("C", 3)])] 1)[2 * 0 + 1]? =
          some (Cell.str "")) := by
  obtain ⟨h1, h2, h3, h4⟩ := c7_padding [("D1", [("A", 1)]), ("D2", [("B", 2), ("C", 3)])]
  exact ⟨h1 _ (by decide), h2 (by decide), h3 1 (by decide), h4 0 (by decide) 1 (by decide)⟩

/-- **C1**: in mapping-driven mode, for a mapping table with distinct division
names (always the case for a parsed JSON object), every division declared in
the mapping appears in the aggregated output exactly once — whether or not any
station matched it — and each member of an emitted group carries the count of
its unique case-insensitive match among the counts, or 0 when no
case-insensitive match exists. -/
theorem c1_mapping_driven (m : MappingTable) (counts : List (String × Nat))
    (hkeys : (m.map Prod.fst).Nodup) :
    (∀ d ∈ m.map Prod.fst, ((buildDivisionData m counts).map Prod.fst).count d = 1) ∧
      (∀ g ∈ buildDivisionData m counts, ∀ oc ∈ g.2,
        ((∀ p ∈ counts, ¬ ciEq p.1 oc.1 = true) → oc.2 = 0) ∧
          (∀ p ∈ counts, ciEq p.1 oc.1 = true →
            (∀ q ∈ counts, ciEq q.1 oc.1 = true → q = p) → oc.2 = p.2)) := by
  have hperm := List.perm_insertionSort jsStrLe (m.map Prod.fst)
  have hmap : (buildDivisionData m counts).map Prod.fst = sortedDivisions m := by
    unfold buildDivisionData
    rw [List.map_map]
    apply List.map_id''
    intro x
    rfl
  constructor
  · intro d hd
    rw [hmap]
    unfold sortedDivisions
    exact List.count_eq_one_of_mem (hperm.nodup_iff.mpr hkeys) (hperm.mem_iff.mpr hd)
  · intro g hg oc hoc
    obtain ⟨d, _, hgd⟩ := List.mem_map.mp hg
    subst hgd
    obtain ⟨o, _, hoeq⟩ := List.mem_map.mp hoc
    subst hoeq
    constructor
    · intro hnone
      have hfind : List.find? (fun p => ciEq p.1 o) counts = none :=
        List.find?_eq_none.mpr (fun p hp => by simpa using hnone p hp)
      simp [lookupCount, hfind]
    · intro p hp hcip huniq
      have hfind : List.find? (fun p => ciEq p.1 o) counts = some p :=
        find?_eq_some_of_unique hp hcip (fun q hq hcq => huniq q hq hcq)
      simp [lookupCount, hfind]

/-- Witness for C1 on spec §8's example: mapping North=[A,B], South=[C] with
counts {a:2}: North appears once, member A gets the count of its unique
case-insensitive match "a", and member B gets 0. -/
theorem c1_mapping_driven_witness :
    ((buildDivisionData [("North", ["A", "B"]), ("South", ["C"])] [("a", 2)]).map
          Prod.fst).count "North" = 1 ∧
      (("A", 2) : String × Nat).2 = (("a", 2) : String × Nat).2 ∧
      (("B", 0) : String × Nat).2 = 0 := by
  obtain ⟨h1, h2⟩ :=
    c1_mapping_driven [("North", ["A", "B"]), ("South", ["C"])] [("a", 2)] (by decide)
  refine ⟨h1 "North" (by decide), ?_, ?_⟩
  · exact (h2 ("North", [("A", 2), ("B", 0)]) (by decide) ("A", 2) (by decide)).2
      ("a", 2) (by decide) (by decide) (by decide)
  · exact (h2 ("North", [("A", 2), ("B", 0)]) (by decide) ("B", 0) (by decide)).1
      (by decide)

/-- **C4 (counterexample)**: the claim that each emitted group's member list is
the declared member list deduplicated (hence with unique member names) is
false: the code sorts the declared list without deduplicating, so a mapping
declaring a member twice yields a group with a duplicated member name. -/
theorem c4_members_counterexample :
    (buildDivisionData [("D", ["A", "A"])] []).map (fun g => g.2.map Prod.fst) =
        [["A", "A"]] ∧
      ¬ (["A", "A"] : List String).Nodup := by
  constructor
  · rfl
  · decide

/-- **C4 (amended)**: each emitted division group's member list is the
mapping's declared member list sorted ascending by the locale comparator,
duplicates preserved; in particular it is a permutation of the declared list,
and the member names are unique whenever the declared list has no
duplicates. -/
theorem c4_members_amended (m : MappingTable) (counts : List (String × Nat))
    (g : String × List (String × Nat)) (hg : g ∈ buildDivisionData m counts) :
    g.2.map Prod.fst = List.insertionSort localeLe (offices m g.1) ∧
      List.Sorted localeLe (g.2.map Prod.fst) ∧
      (g.2.map Prod.fst).Perm (offices m g.1) ∧
      ((offices m g.1).Nodup → (g.2.map Prod.fst).Nodup) := by
  obtain ⟨d, _, hgd⟩ := List.mem_map.mp hg
  subst hgd
  have hmembers : (buildOfficeData counts (offices m d)).map Prod.fst =
      List.insertionSort localeLe (offices m d) := by
    unfold buildOfficeData
    rw [List.map_map]
    apply List.map_id''
    intro x
    rfl
  have hperm := List.perm_insertionSort localeLe (offices m d)
  refine ⟨hmembers, ?_, ?_, ?_⟩
  · rw [hmembers]
    exact List.sorted_insertionSort localeLe (offices m d)
  · rw [hmembers]
    exact hperm
  · intro hnd
    rw [hmembers]
    exact hperm.nodup_iff.mpr hnd

/-- Witness for C4 (amended): a declared list ["b", "A"] is emitted sorted by
the locale comparator as [A, b] (case-insensitive primary ordering), a
permutation of the declared list, with unique members since the declared list
has none duplicated. -/
theorem c4_members_amended_witness :
    (("D", [("A", 1), ("b", 0)]) : String × List (String × Nat)).2.map Prod.fst =
        List.insertionSort localeLe (offices [("D", ["b", "A"])] "D") ∧
      List.Sorted localeLe
        ((("D", [("A", 1), ("b", 0)]) : String × List (String × Nat)).2.map Prod.fst) ∧
      ((("D", [("A", 1), ("b", 0)]) : String × List (String × Nat)).2.map
          Prod.fst).Perm (offices [("D", ["b", "A"])] "D") ∧
      ((offices [("D", ["b", "A"])] "D").Nodup →
        ((("D", [("A", 1), ("b", 0)]) : String × List (String × Nat)).2.map
            Prod.fst).Nodup) :=
  c4_members_amended [("D", ["b", "A"])] [("A", 1)] ("D", [("A", 1), ("b", 0)])
    (by decide)
